import Mathlib

/-!
Verification of the resilient request dispatcher and the incremental stream
reader of the `chat-completion-client` Go library (package `openai`).

The shallow embedding translates the control flow of `client.go` (retry loop,
backoff, retry-option merging) and of the stream reader (`streamReader.Recv`
and `streamReader.processLines`) into executable Lean functions.

Modelling conventions:
* The HTTP transport is a function from the attempt index to its outcome
  (`TransportOutcome`): either a transport-level failure (Go: `err != nil`,
  no response) or a response with a status code and a body string.
* `rand.Int63n(baseDelay)` is modelled by `jitterW i % baseDelay` for an
  arbitrary `jitterW : Nat → Nat`: the library call always yields a value
  in `[0, baseDelay)`.
* The `select` race between `time.After` and `req.Context().Done()` is
  modelled by `ctxDone : Nat → Bool`: `ctxDone i = true` means the caller's
  cancellation fires before the backoff timer of attempt `i` elapses.
* The response body consumed by the stream reader is a list of
  newline-terminated lines; `bufio.Reader.ReadBytes` on an exhausted list is
  a read failure (`io.EOF`).  Durations are in milliseconds (`baseDelay = 200`).
* `encoding/json` is external to the repository; the payload decoder
  (`json.Unmarshal` into the `streamable` type) and the error-envelope decoder
  are taken as function parameters `dT` / `dE`; concrete sample decoders are
  supplied for closed evaluations.
* `bytes.Buffer.Write` never fails (Go documentation), so the write-error
  branch of `processLines` is not reachable and is not modelled.
-/

deriving instance DecidableEq for Except

namespace ChatClient

/-- Modelled from the spec: the structured error carried in the error envelope
(`APIError` in `error.go`, which is not among the provided sources).  Per
§4.3 of the spec it is "a status-carrying domain error with that message";
only the message is relevant to the claims. -/
structure APIError where
  message : String
deriving DecidableEq, Repr

/-- Modelled from the spec: the error envelope `{error: {message, ...}}`
(`ErrorResponse` in `error.go`, not among the provided sources). -/
structure ErrorResponse where
  error : Option APIError
deriving DecidableEq, Repr

/-! ## Stream reader (`streamReader` of the unnamed stream source file) -/

/-- Go source: `headerData = []byte("data: ")`. -/
def headerData : String := "data: "

/-- Go source: ``errorPrefix = []byte(`data: {"error":`)`` (named `errorMark`
here). -/
def errorMark : String := "data: \x7b\"error\":"

/-- The byte values trimmed by Go's `unicode.IsSpace` in the ASCII range
(the wire format is ASCII, so bytes coincide with characters). -/
def isSpaceChar (c : Char) : Bool :=
  c = ' ' || c = '\t' || c = '\n' || c = '\x0b' || c = '\x0c' || c = '\r'

/-- Go source: `bytes.TrimSpace` — drop leading and trailing whitespace,
implemented structurally over the character list so that it evaluates. -/
def trimSpace (s : String) : String :=
  ⟨((s.data.dropWhile isSpaceChar).reverse.dropWhile isSpaceChar).reverse⟩

/-- Go source: `bytes.HasPrefix s p` — implemented structurally over the
character lists. -/
def hasPrefixB (s p : String) : Bool :=
  p.data.isPrefixOf s.data

/-- Go source: `bytes.TrimPrefix(noSpaceLine, headerData)` — strips the
data-frame marker when present. -/
def stripDataMark (s : String) : String :=
  if hasPrefixB s headerData then ⟨s.data.drop headerData.length⟩ else s

/-- The distinguishable outcomes with which a `Recv`/`processLines` call can
fail. `eof` is `io.EOF` (used both for a clean read failure and for the
`[DONE]` sentinel), `respError inner` is `fmt.Errorf("error, %w",
respErr.Error)`, `tooManyEmpty` is `ErrTooManyEmptyStreamMessages`, and
`unmarshalFail` is a `json.Unmarshal` failure on a data payload. -/
inductive RecvErr where
  | eof
  | respError (inner : Option APIError)
  | tooManyEmpty
  | unmarshalFail
deriving DecidableEq, Repr

/-- The user-visible message (Go `Error()` string) of a `RecvErr`.
`io.EOF` renders as "EOF"; `fmt.Errorf("error, %w", e)` renders as
"error, " followed by the wrapped error's message (for a nil wrapped error,
`fmt` renders the `%w` verb as `%!w(<nil>)`); the too-many-empty-messages
error carries the fixed text from the source.  The message of an
`unmarshalFail` comes from `encoding/json` and is not modelled. -/
def errMessage : RecvErr → String
  | .eof => "EOF"
  | .respError (some e) => "error, " ++ e.message
  | .respError none => "error, %!w(<nil>)"
  | .tooManyEmpty => "stream has sent too many empty messages"
  | .unmarshalFail => "json unmarshal failure"

/-- Go source: `streamReader.unmarshalError` — decode the accumulated error
buffer; an empty buffer or a decode failure yields no envelope. -/
def unmarshalError (dE : String → Option ErrorResponse) (errBuf : String) :
    Option ErrorResponse :=
  if errBuf.length = 0 then none else dE errBuf

/-- Result of one `processLines` call: the returned `(T, error)` pair,
the lines remaining in the reader, the final error buffer, the new
`isFinished` flag, and the final value of the local `emptyMessagesCount`. -/
structure PLOut (T : Type) where
  res : Except RecvErr T
  rest : List String
  errBuf : String
  finished : Bool
  count : Nat
deriving DecidableEq, Repr

/-- Go source: `streamReader.processLines` — the loop body, one recursive
call per consumed line.  `zero` is the Go zero value `*new(T)`; `limit` is
`stream.emptyMessagesLimit`; the `Nat` argument is the local
`emptyMessagesCount`, the `Bool` argument the local `hasErrorPrefix` flag. -/
def processLines (dT : String → Option T) (dE : String → Option ErrorResponse)
    (zero : T) (limit : Nat) :
    List String → String → Nat → Bool → PLOut T
  | [], errBuf, count, _ =>
    match unmarshalError dE errBuf with
    | some respErr => ⟨.error (.respError respErr.error), [], errBuf, false, count⟩
    | none => ⟨.error .eof, [], errBuf, false, count⟩
  | _rawLine :: rest, errBuf, count, true =>
    match unmarshalError dE errBuf with
    | some respErr => ⟨.error (.respError respErr.error), rest, errBuf, false, count⟩
    | none => ⟨.ok zero, rest, errBuf, false, count⟩
  | rawLine :: rest, errBuf, count, false =>
    let noSpaceLine := trimSpace rawLine
    let hasErrorLead := hasPrefixB noSpaceLine errorMark
    if !hasPrefixB noSpaceLine headerData || hasErrorLead then
      let toWrite := if hasErrorLead then stripDataMark noSpaceLine else noSpaceLine
      let errBuf2 := errBuf ++ toWrite
      let count2 := count + 1
      if count2 > limit then ⟨.error .tooManyEmpty, rest, errBuf2, false, count2⟩
      else processLines dT dE zero limit rest errBuf2 count2 hasErrorLead
    else
      let noPrefixLine := stripDataMark noSpaceLine
      if noPrefixLine = "[DONE]" then ⟨.error .eof, rest, errBuf, true, count⟩
      else
        match dT noPrefixLine with
        | none => ⟨.error .unmarshalFail, rest, errBuf, false, count⟩
        | some response => ⟨.ok response, rest, errBuf, false, count⟩

/-- Go source: `streamReader[T]` — the reader state.  The live body is the
list of lines not yet consumed. -/
structure StreamReader (T : Type) where
  emptyMessagesLimit : Nat
  isFinished : Bool
  lines : List String
  errBuffer : String
deriving DecidableEq, Repr

/-- Go source: `streamReader.Recv` — returns `io.EOF` at once when finished,
otherwise runs `processLines` (whose local counter starts at 0 and whose
local `hasErrorPrefix` flag starts `false`) and stores the resulting reader
state. -/
def Recv (dT : String → Option T) (dE : String → Option ErrorResponse)
    (zero : T) (s : StreamReader T) : Except RecvErr T × StreamReader T :=
  if s.isFinished then (.error .eof, s)
  else
    let r := processLines dT dE zero s.emptyMessagesLimit s.lines s.errBuffer 0 false
    (r.res, { s with lines := r.rest, errBuffer := r.errBuf, isFinished := r.finished })

/-- Modelled from the spec: §3 describes `StreamState` with a persistent
`emptyMessageCount` that "only increases within the lifetime of the reader".
This variant reader carries the counter in its state across `next()` calls,
for comparison with the source's reader (whose counter is a per-call local). -/
structure SpecStreamReader (T : Type) where
  emptyMessagesLimit : Nat
  isFinished : Bool
  lines : List String
  errBuffer : String
  emptyMessageCount : Nat
deriving DecidableEq, Repr

/-- Modelled from the spec: `next()` for the spec-described reader whose
empty-message counter persists across calls (never reset between calls). -/
def specRecv (dT : String → Option T) (dE : String → Option ErrorResponse)
    (zero : T) (s : SpecStreamReader T) : Except RecvErr T × SpecStreamReader T :=
  if s.isFinished then (.error .eof, s)
  else
    let r := processLines dT dE zero s.emptyMessagesLimit s.lines s.errBuffer
      s.emptyMessageCount false
    (r.res, { s with lines := r.rest, errBuffer := r.errBuf, isFinished := r.finished,
                     emptyMessageCount := r.count })

/-- Sample payload decoder for closed evaluations: stands in for
`json.Unmarshal` into the `streamable` payload type at the specific sample
payloads used (payload type abstracted to `Nat`). -/
def sampleDecodeT : String → Option Nat := fun s =>
  if s = "\x7b\"id\":1\x7d" then some 1
  else if s = "\x7b\"id\":2\x7d" then some 2
  else none

/-- Sample error-envelope decoder for closed evaluations: stands in for
`json.Unmarshal` into `*ErrorResponse` at the specific sample buffers used
(`{"error":{"message":"boom"}}` decodes to an envelope carrying message
"boom"; the valid JSON object `{}` decodes to an envelope with no error;
anything else is treated as a decode failure). -/
def sampleDecodeErr : String → Option ErrorResponse := fun s =>
  if s = "\x7b\"error\":\x7b\"message\":\"boom\"\x7d\x7d" then
    some ⟨some ⟨"boom"⟩⟩
  else if s = "\x7b\x7d" then some ⟨none⟩
  else none

/-! ## Resilient request dispatcher (`client.go`) -/

/-- Go source: `RetryOptions` — `Retries` and `RetryAboveCode` are Go `int`
(so possibly negative), `RetryCodes` a slice of `int`. -/
structure RetryOptions where
  Retries : Int
  RetryAboveCode : Int
  RetryCodes : List Int
deriving DecidableEq, Repr

/-- Go source: `NewDefaultRetryOptions` — one try, no retries. -/
def NewDefaultRetryOptions : RetryOptions :=
  { Retries := 0, RetryAboveCode := 1, RetryCodes := [] }

/-- Go source: the inner `for _, code := range opt.RetryCodes` loop of
`RetryOptions.complete` — append each code not already present. -/
def appendUnique (cs codes : List Int) : List Int :=
  codes.foldl (fun acc code => if acc.contains code then acc else acc ++ [code]) cs

/-- Go source: the body of the `for _, opt := range opts` loop of
`RetryOptions.complete`, merging a single override fragment. -/
def completeOne (r opt : RetryOptions) : RetryOptions :=
  let r1 := if opt.Retries > 0 then { r with Retries := opt.Retries } else r
  let r2 := if opt.RetryAboveCode > 0 then
    { r1 with RetryAboveCode := opt.RetryAboveCode } else r1
  { r2 with RetryCodes := appendUnique r2.RetryCodes opt.RetryCodes }

/-- Go source: `RetryOptions.complete` — fold the override fragments onto
the receiver in order. -/
def RetryOptions.complete (r : RetryOptions) (opts : List RetryOptions) :
    RetryOptions :=
  opts.foldl completeOne r

/-- Go source: `RetryOptions.canRetry`. -/
def RetryOptions.canRetry (r : RetryOptions) (statusCode : Int) : Bool :=
  if r.RetryAboveCode > 0 ∧ statusCode > r.RetryAboveCode then true
  else r.RetryCodes.contains statusCode

/-- Go source: `isFailureStatusCode` — status outside `[200, 400)`. -/
def isFailureStatusCode (status : Int) : Bool :=
  status < 200 || status ≥ 400

/-- Outcome of one `c.config.HTTPClient.Do(req)` call: either a
transport-level failure (Go `err != nil`, no response obtained) or a
response with its status code and body. -/
inductive TransportOutcome where
  | failure
  | response (status : Int) (body : String)
deriving DecidableEq, Repr

/-- Go source: `const baseDelay = time.Millisecond * 200` (in ms). -/
def baseDelay : Nat := 200

/-- Go source: `delay := baseDelay * time.Duration(1<<i)` plus
`jitter := time.Duration(rand.Int63n(int64(baseDelay)))`; `jitterW i %
baseDelay` models the library's uniform draw from `[0, baseDelay)`. -/
def backoffDelay (jitterW : Nat → Nat) (i : Nat) : Nat :=
  baseDelay * 2 ^ i + jitterW i % baseDelay

/-- The distinguishable results of `sendRequest`: a decoded success, a
`decodeResponse` failure, the immediate "request failed on non-retriable
status-code" error, the "request failed due to canceled context" error, and
the "request exceeded retry limits" error. -/
inductive SendResult (T : Type) where
  | success (v : T)
  | decodeFailed
  | nonRetriableStatus (status : Int)
  | canceledContext
  | exceededRetries
deriving DecidableEq, Repr

/-- One executed attempt: its loop index, the transport outcome, and the
backoff wait (in ms) completed after it (`none` when no wait was performed:
transport failures skip the backoff, terminal attempts return at once, and a
cancellation aborts the wait). -/
structure ARecord where
  idx : Nat
  outcome : TransportOutcome
  wait : Option Nat
deriving DecidableEq, Repr

/-- Go source: the attempt loop `for i := 0; i <= options.Retries; i++` of
`sendRequest`.  The first `Nat` is the remaining number of loop iterations,
the second the current index `i`.  Returns the call's result together with
the record of every executed attempt (so the attempt count is the length of
that list).  `decode` models `decodeResponse` on the response body. -/
def sendLoop (decode : String → Option T) (transport : Nat → TransportOutcome)
    (jitterW : Nat → Nat) (ctxDone : Nat → Bool) (opts : RetryOptions) :
    Nat → Nat → SendResult T × List ARecord
  | 0, _ => (.exceededRetries, [])
  | fuel + 1, i =>
    match transport i with
    | .failure =>
      -- connection error: record the failure and `continue` (no backoff)
      let r := sendLoop decode transport jitterW ctxDone opts fuel (i + 1)
      (r.1, ⟨i, .failure, none⟩ :: r.2)
    | .response st body =>
      if isFailureStatusCode st then
        if opts.canRetry st then
          -- exponential backoff racing the context's cancellation
          if ctxDone i then
            (.canceledContext, [⟨i, .response st body, none⟩])
          else
            let r := sendLoop decode transport jitterW ctxDone opts fuel (i + 1)
            (r.1, ⟨i, .response st body, some (backoffDelay jitterW i)⟩ :: r.2)
        else
          (.nonRetriableStatus st, [⟨i, .response st body, none⟩])
      else
        match decode body with
        | some v => (.success v, [⟨i, .response st body, none⟩])
        | none => (.decodeFailed, [⟨i, .response st body, none⟩])

/-- Go source: `Client.sendRequest` — merge the retry options onto the
default and run the attempt loop (`Retries + 1` iterations).  Header
manipulation and the byte-for-byte replay of the buffered request body are
not observable through the transport abstraction and are elided. -/
def sendRequest (decode : String → Option T) (transport : Nat → TransportOutcome)
    (jitterW : Nat → Nat) (ctxDone : Nat → Bool) (retryOpts : List RetryOptions) :
    SendResult T × List ARecord :=
  let options := NewDefaultRetryOptions.complete retryOpts
  sendLoop decode transport jitterW ctxDone options (options.Retries.toNat + 1) 0

/-- Transport behaviour of the spec's `503, 503, 200` scenario: the first two
attempts draw a 503 response, the third a 200 response with the given body. -/
def transport503x2 (body : String) : Nat → TransportOutcome :=
  fun i => if i < 2 then .response 503 "" else .response 200 body

/-! ## Helper lemmas -/

/-- A run of noise lines (no data-frame marker, no error-lead marker) within
the per-call budget is skipped: the loop continues past them with the counter
advanced by their number and the trimmed lines appended to the error buffer. -/
theorem processLines_skip_noise {T : Type} (dT : String → Option T)
    (dE : String → Option ErrorResponse) (zero : T) (limit : Nat) :
    ∀ (noise rest : List String) (buf : String) (count : Nat),
      (∀ l ∈ noise, hasPrefixB (trimSpace l) headerData = false ∧
        hasPrefixB (trimSpace l) errorMark = false) →
      count + noise.length ≤ limit →
      ∃ buf2, processLines dT dE zero limit (noise ++ rest) buf count false =
        processLines dT dE zero limit rest buf2 (count + noise.length) false := by
  intro noise
  induction noise with
  | nil =>
    intro rest buf count _ _
    exact ⟨buf, by simp⟩
  | cons l ns ih =>
    intro rest buf count hnoise hle
    have h1 : hasPrefixB (trimSpace l) headerData = false :=
      (hnoise l (by simp)).1
    have h2 : hasPrefixB (trimSpace l) errorMark = false :=
      (hnoise l (by simp)).2
    have hns : ∀ x ∈ ns, hasPrefixB (trimSpace x) headerData = false ∧
        hasPrefixB (trimSpace x) errorMark = false :=
      fun x hx => hnoise x (by simp [hx])
    have hcount : ¬ (count + 1 > limit) := by
      simp only [List.length_cons] at hle
      omega
    have hle2 : (count + 1) + ns.length ≤ limit := by
      simp only [List.length_cons] at hle
      omega
    obtain ⟨buf2, hskip⟩ := ih rest (buf ++ trimSpace l) (count + 1) hns hle2
    refine ⟨buf2, ?_⟩
    rw [List.cons_append]
    simp only [processLines, h1, h2, Bool.not_false, Bool.or_false, if_true,
      if_neg hcount, Bool.false_eq_true, if_false]
    rw [hskip]
    have : count + 1 + ns.length = count + (l :: ns).length := by
      simp only [List.length_cons]
      omega
    rw [this]

/-- One noise line past the per-call budget makes the call fail with the
too-many-empty-messages error, whatever follows. -/
theorem processLines_noise_tooMany {T : Type} (dT : String → Option T)
    (dE : String → Option ErrorResponse) (zero : T) (limit : Nat) :
    ∀ (noise rest : List String) (buf : String) (count : Nat),
      (∀ l ∈ noise, hasPrefixB (trimSpace l) headerData = false ∧
        hasPrefixB (trimSpace l) errorMark = false) →
      count ≤ limit →
      count + noise.length > limit →
      (processLines dT dE zero limit (noise ++ rest) buf count false).res =
        .error .tooManyEmpty := by
  intro noise
  induction noise with
  | nil =>
    intro rest buf count _ hle hgt
    simp at hgt
    omega
  | cons l ns ih =>
    intro rest buf count hnoise hle hgt
    have h1 : hasPrefixB (trimSpace l) headerData = false :=
      (hnoise l (by simp)).1
    have h2 : hasPrefixB (trimSpace l) errorMark = false :=
      (hnoise l (by simp)).2
    have hns : ∀ x ∈ ns, hasPrefixB (trimSpace x) headerData = false ∧
        hasPrefixB (trimSpace x) errorMark = false :=
      fun x hx => hnoise x (by simp [hx])
    rw [List.cons_append]
    by_cases hover : count + 1 > limit
    · simp only [processLines, h1, h2, Bool.not_false, Bool.or_false, if_true,
        if_pos hover]
    · have hle2 : count + 1 ≤ limit := by omega
      have hgt2 : (count + 1) + ns.length > limit := by
        simp only [List.length_cons] at hgt
        omega
      simp only [processLines, h1, h2, Bool.not_false, Bool.or_false, if_true,
        if_neg hover]
      exact ih rest (buf ++ trimSpace l) (count + 1) hns hle2 hgt2

/-- A genuine data frame at the head (data-frame marker, no error-lead, not
the sentinel) makes the call return at once: the decoded payload on decode
success and the fatal unmarshal failure otherwise, leaving `finished` off,
the counter and the error buffer untouched, and the frame consumed. -/
theorem processLines_data_head {T : Type} (dT : String → Option T)
    (dE : String → Option ErrorResponse) (zero : T) (limit : Nat)
    (d : String) (rest : List String) (buf : String) (count : Nat)
    (h1 : hasPrefixB (trimSpace d) headerData = true)
    (h2 : hasPrefixB (trimSpace d) errorMark = false)
    (h3 : stripDataMark (trimSpace d) ≠ "[DONE]") :
    processLines dT dE zero limit (d :: rest) buf count false =
      match dT (stripDataMark (trimSpace d)) with
      | none => ⟨.error .unmarshalFail, rest, buf, false, count⟩
      | some v => ⟨.ok v, rest, buf, false, count⟩ := by
  simp only [processLines, h1, h2, Bool.not_true, Bool.or_false,
    Bool.false_eq_true, if_false, if_neg h3]

/-- The terminal sentinel frame at the head makes the call return `io.EOF`
with the `finished` flag set and everything else untouched. -/
theorem processLines_done_head {T : Type} (dT : String → Option T)
    (dE : String → Option ErrorResponse) (zero : T) (limit : Nat)
    (d : String) (rest : List String) (buf : String) (count : Nat)
    (h : trimSpace d = "data: [DONE]") :
    processLines dT dE zero limit (d :: rest) buf count false =
      ⟨.error .eof, rest, buf, true, count⟩ := by
  have e1 : hasPrefixB (trimSpace d) headerData = true := by rw [h]; decide
  have e2 : hasPrefixB (trimSpace d) errorMark = false := by rw [h]; decide
  have e3 : stripDataMark (trimSpace d) = "[DONE]" := by rw [h]; decide
  simp only [processLines, e1, e2, Bool.not_true, Bool.or_false,
    Bool.false_eq_true, if_false, e3, if_true]

/-- Within one `processLines` call the local counter never decreases: the
final counter value is at least the starting one. -/
theorem processLines_count_mono {T : Type} (dT : String → Option T)
    (dE : String → Option ErrorResponse) (zero : T) (limit : Nat) :
    ∀ (lines : List String) (buf : String) (count : Nat) (hasErr : Bool),
      count ≤ (processLines dT dE zero limit lines buf count hasErr).count := by
  intro lines
  induction lines with
  | nil =>
    intro buf count hasErr
    simp only [processLines]
    cases unmarshalError dE buf <;> simp
  | cons l ls ih =>
    intro buf count hasErr
    cases hasErr with
    | true =>
      simp only [processLines]
      cases unmarshalError dE buf <;> simp
    | false =>
      simp only [processLines]
      by_cases hb : (!hasPrefixB (trimSpace l) headerData ||
          hasPrefixB (trimSpace l) errorMark) = true
      · rw [if_pos hb]
        by_cases hover : count + 1 > limit
        · rw [if_pos hover]
          simp
        · rw [if_neg hover]
          exact le_trans (by omega) (ih _ (count + 1) _)
      · rw [if_neg hb]
        by_cases hdone : stripDataMark (trimSpace l) = "[DONE]"
        · rw [if_pos hdone]
        · rw [if_neg hdone]
          cases dT (stripDataMark (trimSpace l)) <;> simp

/-- An error-lead line at the head (with the counter within budget) is
appended — stripped of the data-frame marker — to the error buffer, and the
loop continues with the error flag raised. -/
theorem processLines_error_lead_head {T : Type} (dT : String → Option T)
    (dE : String → Option ErrorResponse) (zero : T) (limit : Nat)
    (d : String) (rest : List String) (buf : String) (count : Nat)
    (h2 : hasPrefixB (trimSpace d) errorMark = true)
    (hover : ¬ (count + 1 > limit)) :
    processLines dT dE zero limit (d :: rest) buf count false =
      processLines dT dE zero limit rest (buf ++ stripDataMark (trimSpace d))
        (count + 1) true := by
  simp only [processLines, h2, Bool.or_true, if_true, if_neg hover]

/-- Unfolding of `Recv` on an unfinished reader. -/
theorem Recv_not_finished {T : Type} (dT : String → Option T)
    (dE : String → Option ErrorResponse) (zero : T) (s : StreamReader T)
    (hfin : s.isFinished = false) :
    Recv dT dE zero s =
      ((processLines dT dE zero s.emptyMessagesLimit s.lines s.errBuffer 0 false).res,
       { s with
          lines := (processLines dT dE zero s.emptyMessagesLimit s.lines
            s.errBuffer 0 false).rest,
          errBuffer := (processLines dT dE zero s.emptyMessagesLimit s.lines
            s.errBuffer 0 false).errBuf,
          isFinished := (processLines dT dE zero s.emptyMessagesLimit s.lines
            s.errBuffer 0 false).finished }) := by
  simp only [Recv, hfin, Bool.false_eq_true, if_false]

/-- An attempt-loop run with an empty attempt record can only be the
exhausted loop: its result is the exceeded-retry-limits error. -/
theorem sendLoop_records_nil {T : Type} (dT : String → Option T)
    (transport : Nat → TransportOutcome) (jW : Nat → Nat) (ctxDone : Nat → Bool)
    (opts : RetryOptions) :
    ∀ (fuel i : Nat),
      (sendLoop dT transport jW ctxDone opts fuel i).2 = [] →
      (sendLoop dT transport jW ctxDone opts fuel i).1 = .exceededRetries := by
  intro fuel i h
  cases fuel with
  | zero => simp [sendLoop]
  | succ n =>
    exfalso
    cases htr : transport i with
    | failure => simp [sendLoop, htr] at h
    | response st body =>
      simp only [sendLoop, htr] at h
      cases hf : isFailureStatusCode st with
      | false =>
        simp only [hf, Bool.false_eq_true, if_false] at h
        cases hdec : dT body <;> simp [hdec] at h
      | true =>
        simp only [hf, if_true] at h
        cases hc : opts.canRetry st with
        | false => simp [hc] at h
        | true =>
          simp only [hc, if_true] at h
          cases hd : ctxDone i <;> simp [hd] at h

/-- Unfolding equation of the deduplicating code-merge. -/
theorem appendUnique_cons (cs : List Int) (c : Int) (rest : List Int) :
    appendUnique cs (c :: rest) =
      appendUnique (if cs.contains c then cs else cs ++ [c]) rest := rfl

/-- The `Retries` field after merging one fragment: replaced only when the
override's value is positive. -/
theorem completeOne_Retries (r opt : RetryOptions) :
    (completeOne r opt).Retries =
      if opt.Retries > 0 then opt.Retries else r.Retries := by
  simp only [completeOne]
  split_ifs <;> rfl

/-- The `RetryAboveCode` field after merging one fragment: replaced only when
the override's value is positive. -/
theorem completeOne_RetryAboveCode (r opt : RetryOptions) :
    (completeOne r opt).RetryAboveCode =
      if opt.RetryAboveCode > 0 then opt.RetryAboveCode else r.RetryAboveCode := by
  simp only [completeOne]
  split_ifs <;> rfl

/-- The `RetryCodes` field after merging one fragment: the deduplicating
union of the two code lists. -/
theorem completeOne_RetryCodes (r opt : RetryOptions) :
    (completeOne r opt).RetryCodes = appendUnique r.RetryCodes opt.RetryCodes := by
  simp only [completeOne]
  split_ifs <;> rfl

/-- Membership in the deduplicating code-merge: a code is in the merged list
exactly when it is in either input. -/
theorem mem_appendUnique :
    ∀ (codes cs : List Int) (x : Int),
      x ∈ appendUnique cs codes ↔ x ∈ cs ∨ x ∈ codes := by
  intro codes
  induction codes with
  | nil => intro cs x; simp [appendUnique]
  | cons c rest ih =>
    intro cs x
    rw [appendUnique_cons]
    by_cases hc : cs.contains c
    · rw [if_pos hc]
      rw [ih]
      have hcmem : c ∈ cs := by
        simpa using hc
      constructor
      · rintro (hx | hx)
        · exact Or.inl hx
        · exact Or.inr (by simp [hx])
      · rintro (hx | hx)
        · exact Or.inl hx
        · rcases (List.mem_cons).mp hx with hx | hx
          · exact Or.inl (hx ▸ hcmem)
          · exact Or.inr hx
    · rw [if_neg hc]
      rw [ih]
      constructor
      · rintro (hx | hx)
        · rcases (List.mem_append).mp hx with hx | hx
          · exact Or.inl hx
          · simp at hx
            exact Or.inr (by simp [hx])
        · exact Or.inr (by simp [hx])
      · rintro (hx | hx)
        · exact Or.inl (by simp [hx])
        · rcases (List.mem_cons).mp hx with hx | hx
          · exact Or.inl (by simp [hx])
          · exact Or.inr hx

/-- The deduplicating code-merge preserves freedom from duplicates. -/
theorem nodup_appendUnique :
    ∀ (codes cs : List Int), cs.Nodup → (appendUnique cs codes).Nodup := by
  intro codes
  induction codes with
  | nil => intro cs h; simpa [appendUnique]
  | cons c rest ih =>
    intro cs h
    rw [appendUnique_cons]
    by_cases hc : cs.contains c
    · rw [if_pos hc]
      exact ih cs h
    · rw [if_neg hc]
      refine ih (cs ++ [c]) ?_
      have hcnm : c ∉ cs := by
        simpa using hc
      simp [List.nodup_append, h, hcnm]

/-- Merging any list of override fragments onto options with non-negative
`Retries` keeps `Retries` non-negative. -/
theorem complete_retries_nonneg :
    ∀ (opts : List RetryOptions) (r : RetryOptions),
      0 ≤ r.Retries → 0 ≤ (r.complete opts).Retries := by
  intro opts
  induction opts with
  | nil => intro r h; simpa [RetryOptions.complete]
  | cons o os ih =>
    intro r h
    show 0 ≤ (RetryOptions.complete (completeOne r o) os).Retries
    refine ih _ ?_
    rw [completeOne_Retries]
    split_ifs with hr <;> omega

/-- Merging any list of override fragments preserves freedom from duplicates
of the retry-code list. -/
theorem complete_codes_nodup :
    ∀ (opts : List RetryOptions) (r : RetryOptions),
      r.RetryCodes.Nodup → (r.complete opts).RetryCodes.Nodup := by
  intro opts
  induction opts with
  | nil => intro r h; simpa [RetryOptions.complete]
  | cons o os ih =>
    intro r h
    show (RetryOptions.complete (completeOne r o) os).RetryCodes.Nodup
    refine ih _ ?_
    rw [completeOne_RetryCodes]
    exact nodup_appendUnique _ _ h

/-! ## Claim theorems -/

/-- C3: for a stream whose next genuine frame is the terminal sentinel, the
`next()` call that consumes it returns `EndOfStream` and sets the finished
flag (consuming only that line, leaving the error buffer untouched), and
once a reader is finished every `next()` call returns `EndOfStream` at once
with the state completely unchanged — no line is read, `finished` is never
reset. -/
theorem c3_done_sentinel_terminal {T : Type} (dT : String → Option T)
    (dE : String → Option ErrorResponse) (zero : T)
    (s : StreamReader T) (d : String) (rest : List String)
    (hfin : s.isFinished = false) (hlines : s.lines = d :: rest)
    (hd : trimSpace d = "data: [DONE]") :
    (Recv dT dE zero s).1 = .error .eof ∧
    (Recv dT dE zero s).2 = { s with lines := rest, isFinished := true } ∧
    ∀ s' : StreamReader T, s'.isFinished = true →
      Recv dT dE zero s' = (.error .eof, s') := by
  rw [Recv_not_finished dT dE zero s hfin, hlines,
    processLines_done_head dT dE zero s.emptyMessagesLimit d rest s.errBuffer 0 hd]
  refine ⟨rfl, rfl, ?_⟩
  intro s' h
  simp [Recv, h]

/-- Witness for C3 on a concrete one-frame stream. -/
theorem c3_done_sentinel_terminal_witness :
    trimSpace "data: [DONE]" = "data: [DONE]" ∧
    (Recv sampleDecodeT sampleDecodeErr 0
      (⟨5, false, ["data: [DONE]"], ""⟩ : StreamReader Nat)).1 = .error .eof ∧
    (Recv sampleDecodeT sampleDecodeErr 0
        (⟨5, false, ["data: [DONE]"], ""⟩ : StreamReader Nat)).2 =
      { (⟨5, false, ["data: [DONE]"], ""⟩ : StreamReader Nat) with
          lines := ([] : List String), isFinished := true } :=
  have h := c3_done_sentinel_terminal sampleDecodeT sampleDecodeErr 0
    ⟨5, false, ["data: [DONE]"], ""⟩ "data: [DONE]" [] rfl rfl (by decide)
  ⟨by decide, h.1, h.2.1⟩

/-- C4: with `emptyMessagesLimit = N`, a `next()` call meeting exactly `N`
noise lines and then a valid data frame returns the decoded payload, while a
call meeting `N + 1` noise lines before any data frame fails with the
too-many-empty-messages error. -/
theorem c4_empty_messages_limit {T : Type} (dT : String → Option T)
    (dE : String → Option ErrorResponse) (zero : T) :
    (∀ (s : StreamReader T) (noise : List String) (d : String)
        (rest : List String) (v : T),
      s.isFinished = false →
      s.lines = noise ++ d :: rest →
      noise.length = s.emptyMessagesLimit →
      (∀ l ∈ noise, hasPrefixB (trimSpace l) headerData = false ∧
        hasPrefixB (trimSpace l) errorMark = false) →
      hasPrefixB (trimSpace d) headerData = true →
      hasPrefixB (trimSpace d) errorMark = false →
      stripDataMark (trimSpace d) ≠ "[DONE]" →
      dT (stripDataMark (trimSpace d)) = some v →
      (Recv dT dE zero s).1 = .ok v) ∧
    (∀ (s : StreamReader T) (noise rest : List String),
      s.isFinished = false →
      s.lines = noise ++ rest →
      noise.length = s.emptyMessagesLimit + 1 →
      (∀ l ∈ noise, hasPrefixB (trimSpace l) headerData = false ∧
        hasPrefixB (trimSpace l) errorMark = false) →
      (Recv dT dE zero s).1 = .error .tooManyEmpty) := by
  constructor
  · intro s noise d rest v hfin hlines hlen hnoise h1 h2 h3 hdec
    rw [Recv_not_finished dT dE zero s hfin, hlines]
    obtain ⟨buf2, hskip⟩ := processLines_skip_noise dT dE zero
      s.emptyMessagesLimit noise (d :: rest) s.errBuffer 0 hnoise (by omega)
    simp only [hskip,
      processLines_data_head dT dE zero s.emptyMessagesLimit d rest buf2
        (0 + noise.length) h1 h2 h3, hdec]
  · intro s noise rest hfin hlines hlen hnoise
    rw [Recv_not_finished dT dE zero s hfin, hlines]
    exact processLines_noise_tooMany dT dE zero s.emptyMessagesLimit noise rest
      s.errBuffer 0 hnoise (by omega) (by omega)

/-- Witness for C4 with limit 1: one noise line then a data frame succeeds;
two noise lines fail. -/
theorem c4_empty_messages_limit_witness :
    sampleDecodeT "\x7b\"id\":1\x7d" = some 1 ∧
    (Recv sampleDecodeT sampleDecodeErr 0
      (⟨1, false, [":ka", "data: \x7b\"id\":1\x7d"], ""⟩ : StreamReader Nat)).1
      = .ok 1 ∧
    (Recv sampleDecodeT sampleDecodeErr 0
      (⟨1, false, [":ka", ":kb"], ""⟩ : StreamReader Nat)).1
      = .error .tooManyEmpty :=
  ⟨by decide,
   (c4_empty_messages_limit sampleDecodeT sampleDecodeErr 0).1
     ⟨1, false, [":ka", "data: \x7b\"id\":1\x7d"], ""⟩ [":ka"]
     "data: \x7b\"id\":1\x7d" [] 1 rfl rfl rfl (by decide) (by decide)
     (by decide) (by decide) (by decide),
   (c4_empty_messages_limit sampleDecodeT sampleDecodeErr 0).2
     ⟨1, false, [":ka", ":kb"], ""⟩ [":ka", ":kb"] [] rfl rfl rfl (by decide)⟩

/-- C10: a data frame whose payload fails to decode makes `next()` return
the decode failure while leaving `finished` off and only that frame
consumed; a subsequent `next()` call resumes reading the body (here: it
returns the payload of the following frame rather than `EndOfStream`). -/
theorem c10_decode_failure_not_terminal {T : Type} (dT : String → Option T)
    (dE : String → Option ErrorResponse) (zero : T)
    (s : StreamReader T) (d : String) (rest : List String)
    (hfin : s.isFinished = false) (hlines : s.lines = d :: rest)
    (h1 : hasPrefixB (trimSpace d) headerData = true)
    (h2 : hasPrefixB (trimSpace d) errorMark = false)
    (h3 : stripDataMark (trimSpace d) ≠ "[DONE]")
    (hdec : dT (stripDataMark (trimSpace d)) = none) :
    (Recv dT dE zero s).1 = .error .unmarshalFail ∧
    (Recv dT dE zero s).2.isFinished = false ∧
    (Recv dT dE zero s).2.lines = rest ∧
    (∀ (d2 : String) (rest2 : List String) (v : T),
      rest = d2 :: rest2 →
      hasPrefixB (trimSpace d2) headerData = true →
      hasPrefixB (trimSpace d2) errorMark = false →
      stripDataMark (trimSpace d2) ≠ "[DONE]" →
      dT (stripDataMark (trimSpace d2)) = some v →
      (Recv dT dE zero (Recv dT dE zero s).2).1 = .ok v) := by
  have hrecv : Recv dT dE zero s =
      (.error .unmarshalFail, { s with lines := rest, isFinished := false }) := by
    rw [Recv_not_finished dT dE zero s hfin, hlines,
      processLines_data_head dT dE zero s.emptyMessagesLimit d rest s.errBuffer
        0 h1 h2 h3, hdec]
  rw [hrecv]
  refine ⟨rfl, rfl, rfl, ?_⟩
  intro d2 rest2 v hrest h1' h2' h3' hdec2
  rw [Recv_not_finished dT dE zero _ rfl]
  show (processLines dT dE zero s.emptyMessagesLimit rest s.errBuffer 0 false).res
    = .ok v
  rw [hrest, processLines_data_head dT dE zero s.emptyMessagesLimit d2 rest2
    s.errBuffer 0 h1' h2' h3', hdec2]

/-- Witness for C10: a malformed frame followed by a good frame. -/
theorem c10_decode_failure_not_terminal_witness :
    sampleDecodeT "\x7b\"bad\"\x7d" = none ∧
    (Recv sampleDecodeT sampleDecodeErr 0
      (⟨3, false, ["data: \x7b\"bad\"\x7d", "data: \x7b\"id\":2\x7d"], ""⟩ :
        StreamReader Nat)).1 = .error .unmarshalFail ∧
    (Recv sampleDecodeT sampleDecodeErr 0
      (⟨3, false, ["data: \x7b\"bad\"\x7d", "data: \x7b\"id\":2\x7d"], ""⟩ :
        StreamReader Nat)).2.isFinished = false ∧
    (Recv sampleDecodeT sampleDecodeErr 0
      (Recv sampleDecodeT sampleDecodeErr 0
        (⟨3, false, ["data: \x7b\"bad\"\x7d", "data: \x7b\"id\":2\x7d"], ""⟩ :
          StreamReader Nat)).2).1 = .ok 2 :=
  have h := c10_decode_failure_not_terminal sampleDecodeT sampleDecodeErr 0
    ⟨3, false, ["data: \x7b\"bad\"\x7d", "data: \x7b\"id\":2\x7d"], ""⟩
    "data: \x7b\"bad\"\x7d" ["data: \x7b\"id\":2\x7d"] rfl rfl (by decide)
    (by decide) (by decide) (by decide)
  ⟨by decide, h.1, h.2.1,
   h.2.2.2 "data: \x7b\"id\":2\x7d" [] 2 rfl (by decide) (by decide) (by decide)
     (by decide)⟩

/-- C2 counterexample: the source's empty-message counter is a local of
`processLines`, re-created at 0 on every `next()` call — it does not persist
across calls.  With limit 1 and the body
`noise, frame, noise, [DONE]` the source's reader succeeds on both calls
(second call: `EndOfStream`), whereas a reader whose counter is never reset
between calls (`specRecv`, the claim's reading) fails the second call with
the too-many-empty-messages error: the two disagree, so the claim is false
of the code. -/
theorem c2_counterexample :
    (Recv sampleDecodeT sampleDecodeErr 0
      (⟨1, false, [":ka", "data: \x7b\"id\":1\x7d", ":ka", "data: [DONE]"], ""⟩ :
        StreamReader Nat)).1 = .ok 1 ∧
    (specRecv sampleDecodeT sampleDecodeErr 0
      (⟨1, false, [":ka", "data: \x7b\"id\":1\x7d", ":ka", "data: [DONE]"], "", 0⟩ :
        SpecStreamReader Nat)).1 = .ok 1 ∧
    (Recv sampleDecodeT sampleDecodeErr 0
      (Recv sampleDecodeT sampleDecodeErr 0
        (⟨1, false, [":ka", "data: \x7b\"id\":1\x7d", ":ka", "data: [DONE]"], ""⟩ :
          StreamReader Nat)).2).1 = .error .eof ∧
    (specRecv sampleDecodeT sampleDecodeErr 0
      (specRecv sampleDecodeT sampleDecodeErr 0
        (⟨1, false, [":ka", "data: \x7b\"id\":1\x7d", ":ka", "data: [DONE]"], "", 0⟩ :
          SpecStreamReader Nat)).2).1 = .error .tooManyEmpty ∧
    (Except.error RecvErr.eof : Except RecvErr Nat) ≠ .error .tooManyEmpty := by
  refine ⟨by decide, by decide, by decide, by decide, by decide⟩

/-- C2 (amended): the empty-message counter is local to a single `next()`
call: each call starts it at 0 (so it is reset between calls, not carried
over), it never decreases within the call, and consequently every call
tolerates up to `emptyMessagesLimit` noise lines regardless of how much
noise earlier calls on the same reader consumed. -/
theorem c2_amended_per_call_counter {T : Type} (dT : String → Option T)
    (dE : String → Option ErrorResponse) (zero : T) :
    (∀ (lines : List String) (buf : String) (count : Nat) (hasErr : Bool)
        (limit : Nat),
      count ≤ (processLines dT dE zero limit lines buf count hasErr).count) ∧
    (∀ (s : StreamReader T) (noise : List String) (d : String)
        (rest : List String) (v : T),
      s.isFinished = false →
      s.lines = noise ++ d :: rest →
      noise.length ≤ s.emptyMessagesLimit →
      (∀ l ∈ noise, hasPrefixB (trimSpace l) headerData = false ∧
        hasPrefixB (trimSpace l) errorMark = false) →
      hasPrefixB (trimSpace d) headerData = true →
      hasPrefixB (trimSpace d) errorMark = false →
      stripDataMark (trimSpace d) ≠ "[DONE]" →
      dT (stripDataMark (trimSpace d)) = some v →
      (Recv dT dE zero s).1 = .ok v) := by
  constructor
  · intro lines buf count hasErr limit
    exact processLines_count_mono dT dE zero limit lines buf count hasErr
  · intro s noise d rest v hfin hlines hlen hnoise h1 h2 h3 hdec
    rw [Recv_not_finished dT dE zero s hfin, hlines]
    obtain ⟨buf2, hskip⟩ := processLines_skip_noise dT dE zero
      s.emptyMessagesLimit noise (d :: rest) s.errBuffer 0 hnoise (by omega)
    simp only [hskip,
      processLines_data_head dT dE zero s.emptyMessagesLimit d rest buf2
        (0 + noise.length) h1 h2 h3, hdec]

/-- Witness for the amended C2: a reader that already consumed noise in its
first call still tolerates `limit` noise lines in its second call. -/
theorem c2_amended_per_call_counter_witness :
    (0 : Nat) ≤ (processLines sampleDecodeT sampleDecodeErr 0 1 [":ka"] "" 0
      false).count ∧
    (Recv sampleDecodeT sampleDecodeErr 0
      (⟨1, false, [":kb", "data: \x7b\"id\":2\x7d"], ":ka"⟩ :
        StreamReader Nat)).1 = .ok 2 :=
  ⟨(c2_amended_per_call_counter sampleDecodeT sampleDecodeErr 0).1
     [":ka"] "" 0 false 1,
   (c2_amended_per_call_counter sampleDecodeT sampleDecodeErr 0).2
     ⟨1, false, [":kb", "data: \x7b\"id\":2\x7d"], ":ka"⟩ [":kb"]
     "data: \x7b\"id\":2\x7d" [] 2 rfl rfl (by decide) (by decide) (by decide)
     (by decide) (by decide) (by decide)⟩

/-- C5 counterexample: for the single error-lead body carrying
`{"error":{"message":"boom"}}` the call fails, but the surfaced error is
`fmt.Errorf("error, %w", ...)`, whose message is "error, boom", not exactly
"boom"; and a body whose accumulated buffer is the valid envelope `{}` (no
error message at all) still takes the decoded-error path (wrapping a nil
error) instead of surfacing the underlying read failure `EOF`. -/
theorem c5_counterexample :
    (Recv sampleDecodeT sampleDecodeErr 0
      (⟨5, false, ["data: \x7b\"error\":\x7b\"message\":\"boom\"\x7d\x7d"], ""⟩ :
        StreamReader Nat)).1 = .error (.respError (some ⟨"boom"⟩)) ∧
    errMessage (.respError (some ⟨"boom"⟩)) = "error, boom" ∧
    ("error, boom" : String) ≠ "boom" ∧
    (Recv sampleDecodeT sampleDecodeErr 0
      (⟨5, false, ["\x7b\x7d"], ""⟩ : StreamReader Nat)).1
      = .error (.respError none) ∧
    (Except.error (RecvErr.respError none) : Except RecvErr Nat)
      ≠ .error .eof := by
  refine ⟨by decide, by decide, by decide, by decide, by decide⟩

/-- C5 (amended): for the single error-lead body carrying
`{"error":{"message":"boom"}}` followed by stream closure, `next()` fails
with the wrapped decoded domain error — the domain message is exactly
"boom" and the surfaced message is "error, " prefixed to it.  In general,
when the read fails at end of body, the call fails with the wrapped decoded
error exactly when the accumulated buffer is non-empty and decodes as the
error envelope (`unmarshalError` yields an envelope — the error message need
not be non-empty); otherwise the underlying read failure is surfaced. -/
theorem c5_amended_error_lead {T : Type} (dT : String → Option T)
    (dE : String → Option ErrorResponse) (zero : T) :
    (∀ (s : StreamReader T) (d : String) (msg : String),
      s.isFinished = false →
      s.lines = [d] →
      s.errBuffer = "" →
      1 ≤ s.emptyMessagesLimit →
      hasPrefixB (trimSpace d) errorMark = true →
      dE (stripDataMark (trimSpace d)) = some ⟨some ⟨msg⟩⟩ →
      (stripDataMark (trimSpace d)).length ≠ 0 →
      (Recv dT dE zero s).1 = .error (.respError (some ⟨msg⟩)) ∧
      errMessage (.respError (some ⟨msg⟩)) = "error, " ++ msg) ∧
    (∀ (s : StreamReader T),
      s.isFinished = false →
      s.lines = [] →
      (∀ er : ErrorResponse, unmarshalError dE s.errBuffer = some er →
        (Recv dT dE zero s).1 = .error (.respError er.error)) ∧
      (unmarshalError dE s.errBuffer = none →
        (Recv dT dE zero s).1 = .error .eof)) := by
  constructor
  · intro s d msg hfin hlines hbuf hlim hlead hdec hne
    refine ⟨?_, rfl⟩
    rw [Recv_not_finished dT dE zero s hfin, hlines]
    rw [processLines_error_lead_head dT dE zero s.emptyMessagesLimit d []
      s.errBuffer 0 hlead (by omega)]
    rw [hbuf]
    have hempty : ("" : String) ++ stripDataMark (trimSpace d)
        = stripDataMark (trimSpace d) := rfl
    rw [hempty]
    simp [processLines, unmarshalError, if_neg hne, hdec]
  · intro s hfin hlines
    constructor
    · intro er her
      rw [Recv_not_finished dT dE zero s hfin, hlines]
      simp only [processLines, her]
    · intro hnone
      rw [Recv_not_finished dT dE zero s hfin, hlines]
      simp only [processLines, hnone]

/-- Witness for the amended C5 at the concrete "boom" body and at an empty
body with an undecodable buffer. -/
theorem c5_amended_error_lead_witness :
    sampleDecodeErr "\x7b\"error\":\x7b\"message\":\"boom\"\x7d\x7d"
      = some ⟨some ⟨"boom"⟩⟩ ∧
    (Recv sampleDecodeT sampleDecodeErr 0
      (⟨5, false, ["data: \x7b\"error\":\x7b\"message\":\"boom\"\x7d\x7d"], ""⟩ :
        StreamReader Nat)).1 = .error (.respError (some ⟨"boom"⟩)) ∧
    (Recv sampleDecodeT sampleDecodeErr 0
      (⟨5, false, [], "not-json"⟩ : StreamReader Nat)).1 = .error .eof :=
  ⟨by decide,
   ((c5_amended_error_lead sampleDecodeT sampleDecodeErr 0).1
     ⟨5, false, ["data: \x7b\"error\":\x7b\"message\":\"boom\"\x7d\x7d"], ""⟩
     "data: \x7b\"error\":\x7b\"message\":\"boom\"\x7d\x7d" "boom"
     rfl rfl rfl (by decide) (by decide) (by decide) (by decide)).1,
   ((c5_amended_error_lead sampleDecodeT sampleDecodeErr 0).2
     ⟨5, false, [], "not-json"⟩ rfl rfl).2 (by decide)⟩

/-- C1 counterexample: with `{retries: 2}` merged onto the default, the
merged policy keeps the default `retryAboveCode = 1`, under which a 400
status **is** retry-eligible (`400 > 1`).  Against an all-400 transport the
dispatcher therefore performs all 3 attempts (each followed by a backoff
wait) and returns the exceeded-retry-limits error — not 1 attempt with the
immediate status-failure error as the claim states. -/
theorem c1_counterexample :
    (NewDefaultRetryOptions.complete [⟨2, 0, []⟩]).canRetry 400 = true ∧
    sendRequest (T := Unit) (fun _ => some ()) (fun _ => .response 400 "")
        (fun _ => 0) (fun _ => false) [⟨2, 0, []⟩] =
      (.exceededRetries,
       [⟨0, .response 400 "", some 200⟩, ⟨1, .response 400 "", some 400⟩,
        ⟨2, .response 400 "", some 800⟩]) ∧
    (3 : Nat) ≠ 1 ∧
    (SendResult.exceededRetries : SendResult Unit) ≠ .nonRetriableStatus 400 := by
  refine ⟨by decide, by decide, by decide, by decide⟩

/-- C1 (amended): with `{retries: 2}` and the default `retryAboveCode` (= 1)
a 400 status is retry-eligible, so against an all-400 transport the
dispatcher performs all 3 attempts and returns the exceeded-retry-limits
error; the single-attempt immediate abort with the status-failure error
happens exactly when 400 is not eligible — e.g. under
`{retries: 2, retryAboveCode: 500}` with 400 not in the retry codes. -/
theorem c1_amended_400_is_retriable {T : Type} (dT : String → Option T)
    (b : Nat → String) (jW : Nat → Nat) :
    (NewDefaultRetryOptions.complete [⟨2, 0, []⟩]).canRetry 400 = true ∧
    (sendRequest dT (fun i => .response 400 (b i)) jW (fun _ => false)
        [⟨2, 0, []⟩]).1 = .exceededRetries ∧
    (sendRequest dT (fun i => .response 400 (b i)) jW (fun _ => false)
        [⟨2, 0, []⟩]).2.length = 3 ∧
    (NewDefaultRetryOptions.complete [⟨2, 500, []⟩]).canRetry 400 = false ∧
    sendRequest dT (fun i => .response 400 (b i)) jW (fun _ => false)
        [⟨2, 500, []⟩] =
      (.nonRetriableStatus 400, [⟨0, .response 400 (b 0), none⟩]) :=
  ⟨rfl, rfl, rfl, rfl, rfl⟩

/-- C6: with `{retries: 2, retryCodes: [503]}` against a transport answering
503, 503, 200, the dispatcher performs exactly 3 attempts, completes a
backoff wait of `base·2^0 + jitter` and then `base·2^1 + jitter` (each
jitter drawn from `[0, base)`, so the waits are at least `base·1` and
`base·2`) before the second and third attempts, and returns the decoded body
of the 200 response. -/
theorem c6_retry503_three_attempts {T : Type} (dT : String → Option T)
    (body : String) (v : T) (jW : Nat → Nat)
    (h : dT body = some v) :
    sendRequest dT (transport503x2 body) jW (fun _ => false) [⟨2, 0, [503]⟩] =
      (.success v,
       [⟨0, .response 503 "", some (backoffDelay jW 0)⟩,
        ⟨1, .response 503 "", some (backoffDelay jW 1)⟩,
        ⟨2, .response 200 body, none⟩]) ∧
    baseDelay * 1 ≤ backoffDelay jW 0 ∧ backoffDelay jW 0 < baseDelay * 2 ∧
    baseDelay * 2 ≤ backoffDelay jW 1 ∧ backoffDelay jW 1 < baseDelay * 3 := by
  have h1 : sendRequest dT (transport503x2 body) jW (fun _ => false)
      [⟨2, 0, [503]⟩] =
      ((sendLoop dT (transport503x2 body) jW (fun _ => false)
          (NewDefaultRetryOptions.complete [⟨2, 0, [503]⟩]) 1 2).1,
       ⟨0, .response 503 "", some (backoffDelay jW 0)⟩ ::
       ⟨1, .response 503 "", some (backoffDelay jW 1)⟩ ::
       (sendLoop dT (transport503x2 body) jW (fun _ => false)
          (NewDefaultRetryOptions.complete [⟨2, 0, [503]⟩]) 1 2).2) := rfl
  have h2 : sendLoop dT (transport503x2 body) jW (fun _ => false)
      (NewDefaultRetryOptions.complete [⟨2, 0, [503]⟩]) 1 2 =
      (match dT body with
       | some w => (.success w, [⟨2, .response 200 body, none⟩])
       | none => (.decodeFailed, [⟨2, .response 200 body, none⟩])) := rfl
  refine ⟨?_, ?_, ?_, ?_, ?_⟩
  · rw [h1, h2, h]
  all_goals
    simp only [backoffDelay, baseDelay, pow_zero, pow_one]
    have j0 := Nat.mod_lt (jW 0) (show 0 < 200 by norm_num)
    have j1 := Nat.mod_lt (jW 1) (show 0 < 200 by norm_num)
    omega

/-- Witness for C6 with the sample decoder, a zero jitter source and the
concrete 200-body decoding to 1. -/
theorem c6_retry503_three_attempts_witness :
    sampleDecodeT "\x7b\"id\":1\x7d" = some 1 ∧
    sendRequest sampleDecodeT (transport503x2 "\x7b\"id\":1\x7d") (fun _ => 0)
        (fun _ => false) [⟨2, 0, [503]⟩] =
      (.success 1,
       [⟨0, .response 503 "", some (backoffDelay (fun _ => 0) 0)⟩,
        ⟨1, .response 503 "", some (backoffDelay (fun _ => 0) 1)⟩,
        ⟨2, .response 200 "\x7b\"id\":1\x7d", none⟩]) :=
  ⟨by decide,
   (c6_retry503_three_attempts sampleDecodeT "\x7b\"id\":1\x7d" 1 (fun _ => 0)
     (by decide)).1⟩

/-- C8: when an attempt draws a retriable failure status and the caller's
cancellation fires during the subsequent backoff wait, the dispatcher
returns the canceled-context error at once: that attempt is the last one
recorded and no further attempts run, however much retry budget (`fuel`)
remains. -/
theorem c8_cancel_in_backoff {T : Type} (dT : String → Option T)
    (transport : Nat → TransportOutcome) (jW : Nat → Nat) (ctxDone : Nat → Bool)
    (opts : RetryOptions) (fuel i : Nat) (st : Int) (body : String)
    (htr : transport i = .response st body)
    (hf : isFailureStatusCode st = true)
    (hc : opts.canRetry st = true)
    (hd : ctxDone i = true) :
    sendLoop dT transport jW ctxDone opts (fuel + 1) i =
      (.canceledContext, [⟨i, .response st body, none⟩]) := by
  simp [sendLoop, htr, hf, hc, hd]

/-- Witness for C8: five spare retries remain, yet cancellation during the
first backoff ends the call after a single attempt. -/
theorem c8_cancel_in_backoff_witness :
    isFailureStatusCode 503 = true ∧
    RetryOptions.canRetry ⟨9, 1, []⟩ 503 = true ∧
    sendLoop (T := Nat) sampleDecodeT (fun _ => .response 503 "") (fun _ => 0)
        (fun _ => true) ⟨9, 1, []⟩ 6 0 =
      (.canceledContext, [⟨0, .response 503 "", none⟩]) :=
  ⟨by decide, by decide,
   c8_cancel_in_backoff sampleDecodeT (fun _ => .response 503 "") (fun _ => 0)
     (fun _ => true) ⟨9, 1, []⟩ 5 0 503 "" rfl (by decide) (by decide) rfl⟩

/-- C9: merging retry-option fragments: an override's `Retries` replaces the
current value exactly when positive, likewise `RetryAboveCode`; the
`RetryCodes` lists are unioned (membership is the disjunction) without
introducing duplicates; and after any sequence of merges onto the default
policy, `Retries` is non-negative (and the code list duplicate-free). -/
theorem c9_retry_options_merge :
    (∀ r opt : RetryOptions,
      (opt.Retries > 0 → (completeOne r opt).Retries = opt.Retries) ∧
      (¬ opt.Retries > 0 → (completeOne r opt).Retries = r.Retries) ∧
      (opt.RetryAboveCode > 0 →
        (completeOne r opt).RetryAboveCode = opt.RetryAboveCode) ∧
      (¬ opt.RetryAboveCode > 0 →
        (completeOne r opt).RetryAboveCode = r.RetryAboveCode) ∧
      (∀ c : Int, c ∈ (completeOne r opt).RetryCodes ↔
        c ∈ r.RetryCodes ∨ c ∈ opt.RetryCodes) ∧
      (r.RetryCodes.Nodup → (completeOne r opt).RetryCodes.Nodup)) ∧
    (∀ opts : List RetryOptions,
      0 ≤ (NewDefaultRetryOptions.complete opts).Retries ∧
      (NewDefaultRetryOptions.complete opts).RetryCodes.Nodup) := by
  constructor
  · intro r opt
    refine ⟨?_, ?_, ?_, ?_, ?_, ?_⟩
    · intro h; rw [completeOne_Retries, if_pos h]
    · intro h; rw [completeOne_Retries, if_neg h]
    · intro h; rw [completeOne_RetryAboveCode, if_pos h]
    · intro h; rw [completeOne_RetryAboveCode, if_neg h]
    · intro c; rw [completeOne_RetryCodes]; exact mem_appendUnique _ _ c
    · intro h; rw [completeOne_RetryCodes]; exact nodup_appendUnique _ _ h
  · intro opts
    exact ⟨complete_retries_nonneg opts _ (by decide),
           complete_codes_nodup opts _ (by decide)⟩

/-- Witness for C9 at a concrete override fragment. -/
theorem c9_retry_options_merge_witness :
    (RetryOptions.Retries ⟨2, 500, [503]⟩ > 0) ∧
    (completeOne ⟨0, 1, []⟩ ⟨2, 500, [503]⟩).Retries = 2 ∧
    ((503 : Int) ∈ (completeOne ⟨0, 1, []⟩ ⟨2, 500, [503]⟩).RetryCodes ↔
      (503 : Int) ∈ ([] : List Int) ∨ (503 : Int) ∈ ([503] : List Int)) ∧
    0 ≤ (NewDefaultRetryOptions.complete [⟨2, 500, [503]⟩]).Retries :=
  ⟨by decide,
   (c9_retry_options_merge.1 ⟨0, 1, []⟩ ⟨2, 500, [503]⟩).1 (by decide),
   (c9_retry_options_merge.1 ⟨0, 1, []⟩ ⟨2, 500, [503]⟩).2.2.2.2.1 503,
   (c9_retry_options_merge.2 [⟨2, 500, [503]⟩]).1⟩

/-- C7: in every dispatcher run, an attempt whose transport call failed
never completes a backoff wait (its record carries no wait), irrespective of
the retry-eligibility predicate; when a transport-failure attempt is the
last one, the run ended only because the attempt budget was exhausted
(result is the exceeded-retry-limits error).  By contrast, every
status-failure attempt that is followed by another attempt completed the
full backoff wait `base·2^i + jitter` for its index. -/
theorem c7_transport_failure_no_backoff {T : Type} (dT : String → Option T)
    (transport : Nat → TransportOutcome) (jW : Nat → Nat) (ctxDone : Nat → Bool)
    (opts : RetryOptions) :
    ∀ (fuel i : Nat),
      (∀ rec ∈ (sendLoop dT transport jW ctxDone opts fuel i).2,
        rec.outcome = .failure → rec.wait = none) ∧
      (∀ rec ∈ (sendLoop dT transport jW ctxDone opts fuel i).2.dropLast,
        ∀ st body, rec.outcome = .response st body →
          rec.wait = some (backoffDelay jW rec.idx)) ∧
      (∀ rec, (sendLoop dT transport jW ctxDone opts fuel i).2.getLast?
          = some rec →
        rec.outcome = .failure →
        (sendLoop dT transport jW ctxDone opts fuel i).1 = .exceededRetries) := by
  intro fuel
  induction fuel with
  | zero =>
    intro i
    refine ⟨?_, ?_, ?_⟩ <;> simp [sendLoop]
  | succ n ih =>
    intro i
    obtain ⟨ih1, ih2, ih3⟩ := ih (i + 1)
    cases htr : transport i with
    | failure =>
      have heq : sendLoop dT transport jW ctxDone opts (n + 1) i =
          ((sendLoop dT transport jW ctxDone opts n (i + 1)).1,
           ⟨i, .failure, none⟩ ::
             (sendLoop dT transport jW ctxDone opts n (i + 1)).2) := by
        simp [sendLoop, htr]
      refine ⟨?_, ?_, ?_⟩
      · intro rec hmem hout
        rw [heq] at hmem
        rcases List.mem_cons.mp hmem with h | h
        · rw [h]
        · exact ih1 rec h hout
      · intro rec hmem st body hout
        rw [heq] at hmem
        cases hr2 : (sendLoop dT transport jW ctxDone opts n (i + 1)).2 with
        | nil =>
          rw [hr2] at hmem
          simp at hmem
        | cons a as =>
          rw [hr2, List.dropLast_cons₂] at hmem
          rcases List.mem_cons.mp hmem with h | h
          · rw [h] at hout
            simp at hout
          · refine ih2 rec ?_ st body hout
            rw [hr2]
            exact h
      · intro rec hlast hout
        rw [heq] at hlast
        rw [heq]
        cases hr2 : (sendLoop dT transport jW ctxDone opts n (i + 1)).2 with
        | nil =>
          exact sendLoop_records_nil dT transport jW ctxDone opts n (i + 1) hr2
        | cons a as =>
          rw [hr2, List.getLast?_cons_cons] at hlast
          refine ih3 rec ?_ hout
          rw [hr2]
          exact hlast
    | response st0 body0 =>
      cases hf : isFailureStatusCode st0 with
      | false =>
        cases hdec : dT body0 with
        | none =>
          have heq : sendLoop dT transport jW ctxDone opts (n + 1) i =
              (.decodeFailed, [⟨i, .response st0 body0, none⟩]) := by
            simp [sendLoop, htr, hf, hdec]
          refine ⟨?_, ?_, ?_⟩
          · intro rec hmem hout
            rw [heq] at hmem
            simp at hmem
            rw [hmem] at hout
            simp at hout
          · intro rec hmem st body hout
            rw [heq] at hmem
            simp at hmem
          · intro rec hlast hout
            rw [heq] at hlast
            simp at hlast
            rw [← hlast] at hout
            simp at hout
        | some v =>
          have heq : sendLoop dT transport jW ctxDone opts (n + 1) i =
              (.success v, [⟨i, .response st0 body0, none⟩]) := by
            simp [sendLoop, htr, hf, hdec]
          refine ⟨?_, ?_, ?_⟩
          · intro rec hmem hout
            rw [heq] at hmem
            simp at hmem
            rw [hmem] at hout
            simp at hout
          · intro rec hmem st body hout
            rw [heq] at hmem
            simp at hmem
          · intro rec hlast hout
            rw [heq] at hlast
            simp at hlast
            rw [← hlast] at hout
            simp at hout
      | true =>
        cases hc : opts.canRetry st0 with
        | false =>
          have heq : sendLoop dT transport jW ctxDone opts (n + 1) i =
              (.nonRetriableStatus st0, [⟨i, .response st0 body0, none⟩]) := by
            simp [sendLoop, htr, hf, hc]
          refine ⟨?_, ?_, ?_⟩
          · intro rec hmem hout
            rw [heq] at hmem
            simp at hmem
            rw [hmem] at hout
            simp at hout
          · intro rec hmem st body hout
            rw [heq] at hmem
            simp at hmem
          · intro rec hlast hout
            rw [heq] at hlast
            simp at hlast
            rw [← hlast] at hout
            simp at hout
        | true =>
          cases hd : ctxDone i with
          | true =>
            have heq : sendLoop dT transport jW ctxDone opts (n + 1) i =
                (.canceledContext, [⟨i, .response st0 body0, none⟩]) := by
              simp [sendLoop, htr, hf, hc, hd]
            refine ⟨?_, ?_, ?_⟩
            · intro rec hmem hout
              rw [heq] at hmem
              simp at hmem
              rw [hmem] at hout
              simp at hout
            · intro rec hmem st body hout
              rw [heq] at hmem
              simp at hmem
            · intro rec hlast hout
              rw [heq] at hlast
              simp at hlast
              rw [← hlast] at hout
              simp at hout
          | false =>
            have heq : sendLoop dT transport jW ctxDone opts (n + 1) i =
                ((sendLoop dT transport jW ctxDone opts n (i + 1)).1,
                 ⟨i, .response st0 body0, some (backoffDelay jW i)⟩ ::
                   (sendLoop dT transport jW ctxDone opts n (i + 1)).2) := by
              simp [sendLoop, htr, hf, hc, hd]
            refine ⟨?_, ?_, ?_⟩
            · intro rec hmem hout
              rw [heq] at hmem
              rcases List.mem_cons.mp hmem with h | h
              · rw [h] at hout
                simp at hout
              · exact ih1 rec h hout
            · intro rec hmem st body hout
              rw [heq] at hmem
              cases hr2 : (sendLoop dT transport jW ctxDone opts n (i + 1)).2 with
              | nil =>
                rw [hr2] at hmem
                simp at hmem
              | cons a as =>
                rw [hr2, List.dropLast_cons₂] at hmem
                rcases List.mem_cons.mp hmem with h | h
                · rw [h]
                · refine ih2 rec ?_ st body hout
                  rw [hr2]
                  exact h
            · intro rec hlast hout
              rw [heq] at hlast
              rw [heq]
              cases hr2 : (sendLoop dT transport jW ctxDone opts n (i + 1)).2 with
              | nil =>
                rw [hr2] at hlast
                simp at hlast
                rw [← hlast] at hout
                simp at hout
              | cons a as =>
                rw [hr2, List.getLast?_cons_cons] at hlast
                refine ih3 rec ?_ hout
                rw [hr2]
                exact hlast

/-- Witness for C7 on a concrete run mixing a transport failure, a
retriable status failure and a success. -/
theorem c7_transport_failure_no_backoff_witness :
    (⟨0, TransportOutcome.failure, none⟩ : ARecord) ∈
      (sendLoop (T := Nat) sampleDecodeT
        (fun i => if i = 0 then .failure else
          if i = 1 then .response 503 "x" else .response 200 "\x7b\"id\":1\x7d")
        (fun _ => 7) (fun _ => false) ⟨2, 1, []⟩ 3 0).2 ∧
    (⟨0, TransportOutcome.failure, none⟩ : ARecord).wait = none :=
  ⟨by decide,
   (c7_transport_failure_no_backoff sampleDecodeT
      (fun i => if i = 0 then .failure else
        if i = 1 then .response 503 "x" else .response 200 "\x7b\"id\":1\x7d")
      (fun _ => 7) (fun _ => false) ⟨2, 1, []⟩ 3 0).1
     ⟨0, TransportOutcome.failure, none⟩ (by decide) rfl⟩

end ChatClient
